import Mathlib

/-!
Verification of the drawing-to-rig extraction pipeline and the AR placement
loop of the rakugaki-clone app (`src/app.js`).

Numeric JS values are embedded as exact rationals (`ℚ`); the constant
`Math.PI` is embedded as `Real.pi` where a claim speaks about angles, via
definitions that are polymorphic in the scalar field.  Stateful fragments
(the per-frame surface tracker, the tap/commit handler, the skeleton
replacement, the OpenCV buffer lifecycle) are embedded as explicit
state-transition functions.
-/

namespace Rakugaki

/-- Axis-aligned rectangle `{x, y, width, height}` in image pixel space,
as produced by `cv.boundingRect` and used for the part boxes. -/
@[ext]
structure RectQ where
  x : ℚ
  y : ℚ
  width : ℚ
  height : ℚ
  deriving DecidableEq, Repr

/-- The `parts` record built by `processDrawingImage` in `app.js`
(lines 294-313): three part boxes plus the source image dimensions. -/
@[ext]
structure Parts where
  headBox : RectQ
  bodyBox : RectQ
  legsBox : RectQ
  imgW : ℚ
  imgH : ℚ
  deriving DecidableEq, Repr

/-- Embedding of the box-partition step of `processDrawingImage`
(`app.js` lines 294-313): from the bounding rectangle `rect` of the
largest contour, build the head/body/legs boxes with the fixed fractions
0.25/0.5/0.2/0.6/0.4 written in the source. -/
def mkParts (rect : RectQ) (imgW imgH : ℚ) : Parts :=
  { headBox :=
      { x := rect.x + rect.width * (1/4)
        y := rect.y
        width := rect.width * (1/2)
        height := rect.height * (1/5) }
    bodyBox :=
      { x := rect.x + rect.width * (1/5)
        y := rect.y + rect.height * (1/5)
        width := rect.width * (3/5)
        height := rect.height * (2/5) }
    legsBox :=
      { x := rect.x + rect.width * (1/5)
        y := rect.y + rect.height * (3/5)
        width := rect.width * (3/5)
        height := rect.height * (2/5) }
    imgW := imgW
    imgH := imgH }

/-- A 3-vector of rationals (positions, scales). -/
@[ext]
structure Vec3Q where
  x : ℚ
  y : ℚ
  z : ℚ
  deriving DecidableEq, Repr

/-- One solid of the rig: its box-geometry dimensions (width, height,
depth in world units) and its local position. -/
@[ext]
structure Solid where
  w : ℚ
  h : ℚ
  d : ℚ
  pos : Vec3Q
  deriving DecidableEq, Repr

/-- The three solids built by `replaceWithSkeleton`. -/
@[ext]
structure Rig where
  head : Solid
  body : Solid
  legs : Solid
  deriving DecidableEq, Repr

/-- The pixel-to-world scale factor of `replaceWithSkeleton`
(`app.js` line 329): `const scale = 0.001`. -/
def worldScale : ℚ := 1/1000

/-- Embedding of the geometry/position part of `replaceWithSkeleton`
(`app.js` lines 331-347): one box solid per part, body at the local
origin, head above, legs below. -/
def buildRig (p : Parts) : Rig :=
  { head :=
      { w := p.headBox.width * worldScale
        h := p.headBox.height * worldScale
        d := 2/25
        pos := ⟨0, (p.bodyBox.height * worldScale) / 2 + (p.headBox.height * worldScale) / 2, 0⟩ }
    body :=
      { w := p.bodyBox.width * worldScale
        h := p.bodyBox.height * worldScale
        d := 1/10
        pos := ⟨0, 0, 0⟩ }
    legs :=
      { w := p.legsBox.width * worldScale
        h := p.legsBox.height * worldScale
        d := 3/25
        pos := ⟨0, -((p.bodyBox.height * worldScale) / 2) - (p.legsBox.height * worldScale) / 2, 0⟩ } }

/-- An extracted contour, abstracted to what `processDrawingImage` reads
off it: its `cv.contourArea` value and its `cv.boundingRect`. -/
@[ext]
structure Contour where
  area : ℚ
  brect : RectQ
  deriving DecidableEq, Repr

/-- Embedding of the maximum-area selection loop of `processDrawingImage`
(`app.js` lines 279-288): running maximum `maxArea` (initially 0) and
current best `maxContour` (initially null), updated whenever the current
contour's area is strictly greater than the running maximum. -/
def selectLoop : List Contour → ℚ → Option Contour → Option Contour
  | [], _, best => best
  | c :: cs, maxArea, best =>
    if maxArea < c.area then selectLoop cs c.area (some c)
    else selectLoop cs maxArea best

/-- The selected contour of `processDrawingImage`: the loop started with
`maxArea = 0`, `maxContour = null`. -/
def selectMaxContour (cs : List Contour) : Option Contour :=
  selectLoop cs 0 none

/-- The bounding rectangle `processDrawingImage` derives from the contour
list: `cv.boundingRect(maxContour)` when a contour was selected, the
empty result otherwise. -/
def extractRect (cs : List Contour) : Option RectQ :=
  (selectMaxContour cs).map Contour.brect

/-- A degenerate boundary (e.g. an isolated pixel), whose
`cv.contourArea` is 0. -/
def zeroAreaContour : Contour :=
  { area := 0, brect := ⟨3, 4, 2, 2⟩ }

/-- A 3-vector over an arbitrary scalar field (used so that the commit
handler, which multiplies by `Math.PI`, can be instantiated at `ℝ`). -/
@[ext]
structure Vec3 (K : Type) where
  x : K
  y : K
  z : K
  deriving DecidableEq, Repr

/-- A 4×4 pose matrix, split into the translation it carries (what
`setFromMatrixPosition` reads) and the remaining entries. -/
@[ext]
structure Mat4 (K : Type) where
  pos : Vec3 K
  lin : List K
  deriving DecidableEq, Repr

/-- The reticle's observable state: its `visible` flag and its `matrix`
(`reticle.matrixAutoUpdate = false`, so the matrix is exactly what the
tracker wrote last). -/
@[ext]
structure Reticle (K : Type) where
  visible : Bool
  matrix : Mat4 K
  deriving DecidableEq, Repr

/-- One XR hit-test result, abstracted to what the loop reads off it:
`getPose(refSpace)`, which may yield no pose. -/
@[ext]
structure HitRes (K : Type) where
  pose : Option (Mat4 K)
  deriving DecidableEq, Repr

/-- Embedding of the per-frame tracker body of the render loop
(`app.js` lines 192-201): with results, take the first and, if its pose
resolves, show the reticle at that pose; with no pose the state is left
untouched; with zero results, hide the reticle. -/
def trackerUpdate {K : Type} (r : Reticle K) (results : List (HitRes K)) : Reticle K :=
  match results with
  | [] => { r with visible := false }
  | h :: _ =>
    match h.pose with
    | some m => { visible := true, matrix := m }
    | none => r

/-- The rig object's observable state mutated by the tap handler
(`model` in `app.js`): visibility, position, Euler rotation components,
and scale vector. -/
@[ext]
structure ModelObj (K : Type) where
  visible : Bool
  position : Vec3 K
  rotX : K
  rotY : K
  rotZ : K
  scale : Vec3 K
  deriving DecidableEq, Repr

/-- Embedding of the tap/commit handler (`app.js` lines 207-216).
`piK` embeds the constant `Math.PI`, `rand` the draw of `Math.random()`.
Returns the updated model state and whether `popIn` was started. -/
def onTap {K : Type} [LinearOrderedField K] (piK rand : K)
    (ret : Reticle K) (m : ModelObj K) : ModelObj K × Bool :=
  if ret.visible then
    ({ visible := true
       position := ret.matrix.pos
       rotX := m.rotX
       rotY := rand * piK * 2
       rotZ := m.rotZ
       scale := ⟨1/1000, 1/1000, 1/1000⟩ }, true)
  else (m, false)

/-- The pop-in animation duration (`app.js` line 234): `dur = 220` ms. -/
def popInDur : ℚ := 220

/-- The near-zero scale seed used at commit and as the animation start
value (`app.js` lines 213 and 238): `0.001`. -/
def scaleSeed : ℚ := 1/1000

/-- Embedding of one `step(t)` tick of `popIn` (`app.js` lines 235-241):
clamped progress, ease-out cubic, the uniform scale vector it applies,
and whether another animation frame is requested. -/
def popInStep (start t : ℚ) : Vec3Q × Bool :=
  let e := min 1 ((t - start) / popInDur)
  let ease := 1 - (1 - e) ^ 3
  let s := scaleSeed + (1 - scaleSeed) * ease
  (⟨s, s, s⟩, if e < 1 then true else false)

/-- The seven native OpenCV buffers `processDrawingImage` allocates
(`app.js` lines 258-276). -/
inductive Buf
  | src | gray | blur | binary | kernel | contours | hierarchy
  deriving DecidableEq, Repr

/-- The OpenCV operations `processDrawingImage` invokes that can throw
at runtime. -/
inductive CvOp
  | cvtColor | gaussianBlur | threshold | morphologyEx | findContours
  | contourArea | boundingRect
  deriving DecidableEq, Repr

/-- Outcome of one call to `processDrawingImage`: its result (an
exception, or the optional `parts` record), the native buffers it
allocated, and the ones it released via `.delete()`. -/
structure CvRun where
  result : Except Unit (Option Parts)
  allocated : List Buf
  released : List Buf
  deriving Repr

/-- All seven buffers, in allocation order. -/
def allBufs : List Buf :=
  [.src, .gray, .blur, .binary, .kernel, .contours, .hierarchy]

/-- Embedding of the buffer lifecycle of `processDrawingImage`
(`app.js` lines 248-321).  `fail o = true` means OpenCV operation `o`
throws when invoked.  Buffers are allocated in source order; the
`.delete()` calls at lines 317-318 run only when control reaches the
end of the function, so a throw exits with nothing released. -/
def processDrawingImage (fail : CvOp → Bool) (imgW imgH : ℚ)
    (cs : List Contour) : CvRun :=
  if fail .cvtColor then
    { result := .error (), allocated := [.src, .gray], released := [] }
  else if fail .gaussianBlur then
    { result := .error (), allocated := [.src, .gray, .blur], released := [] }
  else if fail .threshold then
    { result := .error (), allocated := [.src, .gray, .blur, .binary], released := [] }
  else if fail .morphologyEx then
    { result := .error (), allocated := [.src, .gray, .blur, .binary, .kernel],
      released := [] }
  else if fail .findContours then
    { result := .error (), allocated := allBufs, released := [] }
  else if fail .contourArea && !cs.isEmpty then
    { result := .error (), allocated := allBufs, released := [] }
  else if fail .boundingRect && (selectMaxContour cs).isSome then
    { result := .error (), allocated := allBufs, released := [] }
  else
    { result := .ok ((selectMaxContour cs).map fun c => mkParts c.brect imgW imgH)
      allocated := allBufs
      released := allBufs }

/-- A failure profile where only `cv.cvtColor` throws. -/
def cvtColorFails : CvOp → Bool :=
  fun o => decide (o = .cvtColor)

/-- The failure profile of a normal run: no operation throws. -/
def noCvFailure : CvOp → Bool :=
  fun _ => false

/-- A scene-graph object, identified by a numeric id standing for its
object identity, with its visibility flag. -/
@[ext]
structure SceneObj where
  id : ℕ
  visible : Bool
  deriving DecidableEq, Repr

/-- `scene.remove(obj)`: the object with the given identity is no longer
a child of the scene. -/
def sceneRemove (s : List SceneObj) (i : ℕ) : List SceneObj :=
  s.filter fun o => o.id ≠ i

/-- `obj.visible = b` on the scene child with the given identity. -/
def sceneSetVisible (s : List SceneObj) (i : ℕ) (b : Bool) : List SceneObj :=
  s.map fun o => if o.id = i then { o with visible := b } else o

/-- The module-level state `replaceWithSkeleton` mutates: the scene's
children and the `model` variable holding the current rig's identity. -/
structure SkelState where
  scene : List SceneObj
  model : Option ℕ
  deriving DecidableEq, Repr

/-- Embedding of the scene mutation of `replaceWithSkeleton`
(`app.js` lines 349-357): `if (model) scene.remove(model)`, then
`model = group; scene.add(model)` (a fresh `THREE.Group`, which is
created visible), then `model.visible = false`. -/
def replaceWithSkeleton (st : SkelState) (newId : ℕ) : SkelState :=
  let s1 := match st.model with
    | some m => sceneRemove st.scene m
    | none => st.scene
  let s2 := s1 ++ [⟨newId, true⟩]
  { scene := sceneSetVisible s2 newId false, model := some newId }

end Rakugaki

namespace Rakugaki

theorem selectLoop_of_forall_le (cs : List Contour) (m : ℚ) (best : Option Contour)
    (h : ∀ c ∈ cs, c.area ≤ m) : selectLoop cs m best = best := by
  induction cs generalizing m best with
  | nil => rfl
  | cons a rest ih =>
    have ha : ¬ m < a.area := not_lt.2 (h a (List.mem_cons_self a rest))
    rw [selectLoop, if_neg ha]
    exact ih m best fun c hc => h c (List.mem_cons_of_mem a hc)

theorem selectLoop_spec (cs : List Contour) (m : ℚ) (best : Option Contour)
    (h : ∃ c ∈ cs, m < c.area) :
    ∃ c l₁ l₂, selectLoop cs m best = some c ∧ cs = l₁ ++ c :: l₂ ∧ m < c.area ∧
      (∀ d ∈ l₁, d.area < c.area) ∧ (∀ d ∈ l₂, d.area ≤ c.area) := by
  induction cs generalizing m best with
  | nil => simp at h
  | cons a rest ih =>
    by_cases hm : m < a.area
    · rw [selectLoop, if_pos hm]
      by_cases hrest : ∃ d ∈ rest, a.area < d.area
      · obtain ⟨c, l₁, l₂, heq, hsplit, hlt, h1, h2⟩ := ih a.area (some a) hrest
        refine ⟨c, a :: l₁, l₂, heq, by rw [hsplit]; rfl, lt_trans hm hlt, ?_, h2⟩
        intro d hd
        rcases List.mem_cons.1 hd with rfl | hd'
        · exact hlt
        · exact h1 d hd'
      · push_neg at hrest
        refine ⟨a, [], rest, ?_, rfl, hm, by simp, hrest⟩
        exact selectLoop_of_forall_le rest a.area (some a) hrest
    · obtain ⟨c₀, hc₀, hlt₀⟩ := h
      have hc₀rest : c₀ ∈ rest := by
        rcases List.mem_cons.1 hc₀ with rfl | h'
        · exact absurd hlt₀ hm
        · exact h'
      rw [selectLoop, if_neg hm]
      obtain ⟨c, l₁, l₂, heq, hsplit, hlt, h1, h2⟩ := ih m best ⟨c₀, hc₀rest, hlt₀⟩
      refine ⟨c, a :: l₁, l₂, heq, by rw [hsplit]; rfl, hlt, ?_, h2⟩
      intro d hd
      rcases List.mem_cons.1 hd with rfl | hd'
      · exact lt_of_le_of_lt (not_lt.1 hm) hlt
      · exact h1 d hd'

/-- C3 counterexample: a contour list holding one degenerate boundary of
area 0 is a found boundary, yet extraction returns the empty result — so
"empty exactly when no boundary was found" fails as stated. -/
theorem extractRect_empty_counterexample :
    [zeroAreaContour] ≠ ([] : List Contour) ∧
      extractRect [zeroAreaContour] = none := by
  constructor
  · simp
  · rfl

/-- C3 amended: extraction returns the empty result exactly when no
boundary of strictly positive area was found; and whenever some boundary
has positive area, it returns the bounding rectangle of the
maximum-area boundary, ties broken by the first encountered (every
earlier boundary has strictly smaller area, every later one has no
larger area). -/
theorem extractRect_spec (cs : List Contour) :
    (extractRect cs = none ↔ ∀ c ∈ cs, c.area ≤ 0) ∧
    ((∃ c ∈ cs, 0 < c.area) →
      ∃ c l₁ l₂, cs = l₁ ++ c :: l₂ ∧ extractRect cs = some c.brect ∧
        0 < c.area ∧ (∀ d ∈ l₁, d.area < c.area) ∧ (∀ d ∈ l₂, d.area ≤ c.area)) := by
  constructor
  · constructor
    · intro hnone
      by_contra hpos
      push_neg at hpos
      obtain ⟨c₀, hc₀, hlt₀⟩ := hpos
      obtain ⟨c, _, _, heq, _, _, _, _⟩ :=
        selectLoop_spec cs 0 none ⟨c₀, hc₀, hlt₀⟩
      simp [extractRect, selectMaxContour, heq] at hnone
    · intro hle
      simp [extractRect, selectMaxContour,
        selectLoop_of_forall_le cs 0 none hle]
  · intro hpos
    obtain ⟨c, l₁, l₂, heq, hsplit, hlt, h1, h2⟩ :=
      selectLoop_spec cs 0 none hpos
    exact ⟨c, l₁, l₂, hsplit,
      by simp [extractRect, selectMaxContour, heq], hlt, h1, h2⟩

/-- Witness for C3 amended: on a concrete list with a duplicated maximal
area, extraction returns the bounding rectangle of the first maximal
boundary. -/
theorem extractRect_spec_witness :
    ∃ c l₁ l₂,
      [(⟨2, ⟨0, 0, 1, 1⟩⟩ : Contour), ⟨5, ⟨1, 1, 2, 2⟩⟩, ⟨5, ⟨9, 9, 9, 9⟩⟩] =
        l₁ ++ c :: l₂ ∧
      extractRect [⟨2, ⟨0, 0, 1, 1⟩⟩, ⟨5, ⟨1, 1, 2, 2⟩⟩, ⟨5, ⟨9, 9, 9, 9⟩⟩] =
        some c.brect ∧
      0 < c.area ∧ (∀ d ∈ l₁, d.area < c.area) ∧ (∀ d ∈ l₂, d.area ≤ c.area) :=
  (extractRect_spec _).2 ⟨⟨5, ⟨1, 1, 2, 2⟩⟩, by simp, by norm_num⟩

/-- C1: for every bounding rectangle with positive width W and height H,
the partition produces HEAD at (x+0.25W, y) sized 0.5W × 0.2H, BODY at
(x+0.20W, y+0.2H) sized 0.6W × 0.4H, and LEGS at (x+0.20W, y+0.6H) sized
0.6W × 0.4H. -/
theorem mkParts_boxes (rect : RectQ) (imgW imgH : ℚ)
    (hw : 0 < rect.width) (hh : 0 < rect.height) :
    (mkParts rect imgW imgH).headBox =
      ⟨rect.x + (1/4) * rect.width, rect.y, (1/2) * rect.width, (1/5) * rect.height⟩ ∧
    (mkParts rect imgW imgH).bodyBox =
      ⟨rect.x + (1/5) * rect.width, rect.y + (1/5) * rect.height,
        (3/5) * rect.width, (2/5) * rect.height⟩ ∧
    (mkParts rect imgW imgH).legsBox =
      ⟨rect.x + (1/5) * rect.width, rect.y + (3/5) * rect.height,
        (3/5) * rect.width, (2/5) * rect.height⟩ := by
  refine ⟨?_, ?_, ?_⟩ <;> simp only [mkParts] <;> ext <;> ring

/-- Witness for C1 at the spec's end-to-end scenario rectangle
{x:50, y:50, w:300, h:700}: head {125,50,150,140}, body {110,190,180,280},
legs {110,470,180,280}. -/
theorem mkParts_boxes_witness :
    (mkParts ⟨50, 50, 300, 700⟩ 400 800).headBox = ⟨125, 50, 150, 140⟩ ∧
    (mkParts ⟨50, 50, 300, 700⟩ 400 800).bodyBox = ⟨110, 190, 180, 280⟩ ∧
    (mkParts ⟨50, 50, 300, 700⟩ 400 800).legsBox = ⟨110, 470, 180, 280⟩ := by
  have h := mkParts_boxes ⟨50, 50, 300, 700⟩ 400 800 (by norm_num) (by norm_num)
  refine ⟨h.1.trans ?_, h.2.1.trans ?_, h.2.2.trans ?_⟩ <;> ext <;> norm_num

/-- C2: for every `Parts`, the rig built from it places the body at the
local origin and stacks head above and legs below with vertical offsets
equal to half the sum of the adjacent world heights, so the solids tile
the vertical axis with no gap and no overlap. -/
theorem buildRig_stacked (p : Parts) :
    (buildRig p).body.pos = ⟨0, 0, 0⟩ ∧
    (buildRig p).head.pos.x = 0 ∧ (buildRig p).head.pos.z = 0 ∧
    (buildRig p).legs.pos.x = 0 ∧ (buildRig p).legs.pos.z = 0 ∧
    (buildRig p).head.pos.y - (buildRig p).body.pos.y =
      ((buildRig p).body.h + (buildRig p).head.h) / 2 ∧
    (buildRig p).body.pos.y - (buildRig p).legs.pos.y =
      ((buildRig p).body.h + (buildRig p).legs.h) / 2 := by
  refine ⟨rfl, rfl, rfl, rfl, rfl, ?_, ?_⟩ <;> simp only [buildRig] <;> ring

/-- C4: on a frame whose hit-test query returns zero results, the
reticle is not visible after the tracker update, whatever its state
after any sequence of earlier frames. -/
theorem trackerUpdate_no_hits (r : Reticle ℚ) (frames : List (List (HitRes ℚ))) :
    (trackerUpdate (frames.foldl trackerUpdate r) []).visible = false := by
  rfl

/-- C10: on a frame with at least one hit-test result whose first
result's pose fails to resolve, the tracker leaves the reticle state —
visibility flag and stored transform — exactly as it was. -/
theorem trackerUpdate_pose_none (r : Reticle ℚ) (h : HitRes ℚ)
    (rest : List (HitRes ℚ)) (hp : h.pose = none) :
    trackerUpdate r (h :: rest) = r := by
  simp [trackerUpdate, hp]

/-- Witness for C10: a previously visible reticle stays visible with its
stale matrix when the first hit's pose does not resolve. -/
theorem trackerUpdate_pose_none_witness :
    trackerUpdate (⟨true, ⟨⟨1, 2, 3⟩, []⟩⟩ : Reticle ℚ) [⟨none⟩] =
      ⟨true, ⟨⟨1, 2, 3⟩, []⟩⟩ :=
  trackerUpdate_pose_none ⟨true, ⟨⟨1, 2, 3⟩, []⟩⟩ ⟨none⟩ [] rfl

/-- C5: a commit gesture while the reticle is not visible changes
nothing about the rig object — position, rotation, scale and visibility
are all unchanged — and starts no animation. -/
theorem onTap_invisible (piK rand : ℚ) (ret : Reticle ℚ) (m : ModelObj ℚ)
    (h : ret.visible = false) : onTap piK rand ret m = (m, false) := by
  simp [onTap, h]

/-- Witness for C5 at a concrete hidden reticle and model state. -/
theorem onTap_invisible_witness :
    onTap (22/7) (1/3) (⟨false, ⟨⟨1, 2, 3⟩, []⟩⟩ : Reticle ℚ)
        ⟨true, ⟨4, 5, 6⟩, 0, 7, 0, ⟨1, 1, 1⟩⟩ =
      (⟨true, ⟨4, 5, 6⟩, 0, 7, 0, ⟨1, 1, 1⟩⟩, false) :=
  onTap_invisible (22/7) (1/3) _ _ rfl

/-- C6: a commit gesture while the reticle is visible makes the rig
object visible, copies exactly the position of the reticle pose (the
x/z rotation components are untouched and the yaw does not come from
the pose), assigns a yaw in [0, 2π), and sets the uniform near-zero
seed scale while starting the pop-in animation.  `Math.PI` is embedded
as `Real.pi` and `Math.random()` as a draw `rand ∈ [0, 1)`. -/
theorem onTap_visible (rand : ℝ) (ret : Reticle ℝ) (m : ModelObj ℝ)
    (h0 : 0 ≤ rand) (h1 : rand < 1) (hv : ret.visible = true) :
    (onTap Real.pi rand ret m).1.visible = true ∧
    (onTap Real.pi rand ret m).1.position = ret.matrix.pos ∧
    (onTap Real.pi rand ret m).1.rotX = m.rotX ∧
    (onTap Real.pi rand ret m).1.rotZ = m.rotZ ∧
    0 ≤ (onTap Real.pi rand ret m).1.rotY ∧
    (onTap Real.pi rand ret m).1.rotY < 2 * Real.pi ∧
    (onTap Real.pi rand ret m).1.scale = ⟨1/1000, 1/1000, 1/1000⟩ ∧
    (onTap Real.pi rand ret m).2 = true := by
  have hpi := Real.pi_pos
  refine ⟨?_, ?_, ?_, ?_, ?_, ?_, ?_, ?_⟩ <;> simp [onTap, hv]
  · positivity
  · nlinarith

/-- Witness for C6 at `rand = 1/2`: the yaw lands at π, inside [0, 2π). -/
theorem onTap_visible_witness :
    (onTap Real.pi (1/2) (⟨true, ⟨⟨1, 2, 3⟩, []⟩⟩ : Reticle ℝ)
        ⟨false, ⟨4, 5, 6⟩, 0, 7, 0, ⟨1, 1, 1⟩⟩).1.visible = true ∧
    (onTap Real.pi (1/2) (⟨true, ⟨⟨1, 2, 3⟩, []⟩⟩ : Reticle ℝ)
        ⟨false, ⟨4, 5, 6⟩, 0, 7, 0, ⟨1, 1, 1⟩⟩).1.position = ⟨1, 2, 3⟩ ∧
    0 ≤ (onTap Real.pi (1/2) (⟨true, ⟨⟨1, 2, 3⟩, []⟩⟩ : Reticle ℝ)
        ⟨false, ⟨4, 5, 6⟩, 0, 7, 0, ⟨1, 1, 1⟩⟩).1.rotY ∧
    (onTap Real.pi (1/2) (⟨true, ⟨⟨1, 2, 3⟩, []⟩⟩ : Reticle ℝ)
        ⟨false, ⟨4, 5, 6⟩, 0, 7, 0, ⟨1, 1, 1⟩⟩).1.rotY < 2 * Real.pi := by
  have h := onTap_visible (1/2) (⟨true, ⟨⟨1, 2, 3⟩, []⟩⟩ : Reticle ℝ)
    ⟨false, ⟨4, 5, 6⟩, 0, 7, 0, ⟨1, 1, 1⟩⟩ (by norm_num) (by norm_num) rfl
  exact ⟨h.1, h.2.1, h.2.2.2.2.1, h.2.2.2.2.2.1⟩

/-- C7: a pop-in tick at elapsed time `t - start ≤ duration` applies the
ease-out cubic `seed + (1 - seed)·(1 - (1 - t/duration)^3)` uniformly on
all three axes; a tick at elapsed time ≥ duration applies exactly scale
1 on all three axes and schedules no further tick. -/
theorem popInStep_spec (start t : ℚ) :
    (t - start ≤ popInDur →
      popInStep start t =
        (⟨scaleSeed + (1 - scaleSeed) * (1 - (1 - (t - start) / popInDur) ^ 3),
          scaleSeed + (1 - scaleSeed) * (1 - (1 - (t - start) / popInDur) ^ 3),
          scaleSeed + (1 - scaleSeed) * (1 - (1 - (t - start) / popInDur) ^ 3)⟩,
          if t - start < popInDur then true else false)) ∧
    (popInDur ≤ t - start → popInStep start t = (⟨1, 1, 1⟩, false)) := by
  have hdur : (0 : ℚ) < popInDur := by norm_num [popInDur]
  constructor
  · intro hle
    have he : min 1 ((t - start) / popInDur) = (t - start) / popInDur :=
      min_eq_right ((div_le_one hdur).2 hle)
    have hiff : (t - start) / popInDur < 1 ↔ t - start < popInDur :=
      div_lt_one hdur
    simp only [popInStep, he]
    refine Prod.ext rfl ?_
    by_cases hlt : t - start < popInDur
    · rw [if_pos (hiff.2 hlt), if_pos hlt]
    · rw [if_neg (fun h => hlt (hiff.1 h)), if_neg hlt]
  · intro hge
    have he : min 1 ((t - start) / popInDur) = 1 :=
      min_eq_left ((one_le_div hdur).2 hge)
    simp only [popInStep, he]
    refine Prod.ext ?_ ?_
    · show (⟨_, _, _⟩ : Vec3Q) = ⟨1, 1, 1⟩
      norm_num [scaleSeed]
    · simp

/-- C8 counterexample: when `cv.cvtColor` throws, the call exits with
`src` and `gray` allocated and nothing released — so "releases all
buffers on every exit path, the thrown-error path alike" fails as
stated. -/
theorem processDrawingImage_release_counterexample :
    (processDrawingImage cvtColorFails 4 4 []).released ≠
      (processDrawingImage cvtColorFails 4 4 []).allocated ∧
    (processDrawingImage cvtColorFails 4 4 []).allocated = [.src, .gray] ∧
    (processDrawingImage cvtColorFails 4 4 []).released = [] := by
  refine ⟨?_, rfl, rfl⟩
  decide

/-- C8 amended: on every run that ends without a thrown error — the
success path and the empty-result path alike — every allocated native
buffer is released before the call ends; on a thrown-error exit, no
buffer is released. -/
theorem processDrawingImage_release (fail : CvOp → Bool) (imgW imgH : ℚ)
    (cs : List Contour) :
    (∀ p, (processDrawingImage fail imgW imgH cs).result = .ok p →
      (processDrawingImage fail imgW imgH cs).released =
        (processDrawingImage fail imgW imgH cs).allocated) ∧
    (∀ e, (processDrawingImage fail imgW imgH cs).result = .error e →
      (processDrawingImage fail imgW imgH cs).released = []) := by
  unfold processDrawingImage
  split
  · exact ⟨fun p hp => by simp at hp, fun e _ => rfl⟩
  · split
    · exact ⟨fun p hp => by simp at hp, fun e _ => rfl⟩
    · split
      · exact ⟨fun p hp => by simp at hp, fun e _ => rfl⟩
      · split
        · exact ⟨fun p hp => by simp at hp, fun e _ => rfl⟩
        · split
          · exact ⟨fun p hp => by simp at hp, fun e _ => rfl⟩
          · split
            · exact ⟨fun p hp => by simp at hp, fun e _ => rfl⟩
            · split
              · exact ⟨fun p hp => by simp at hp, fun e _ => rfl⟩
              · exact ⟨fun p _ => rfl, fun e he => by simp at he⟩

/-- Witness for C8 amended: a run with no throwing operation on an
empty contour list (the empty-result path) releases exactly what it
allocated. -/
theorem processDrawingImage_release_witness :
    (processDrawingImage noCvFailure 4 4 []).released =
      (processDrawingImage noCvFailure 4 4 []).allocated :=
  (processDrawingImage_release noCvFailure 4 4 []).1 none rfl

theorem sceneSetVisible_append (s₁ s₂ : List SceneObj) (i : ℕ) (b : Bool) :
    sceneSetVisible (s₁ ++ s₂) i b =
      sceneSetVisible s₁ i b ++ sceneSetVisible s₂ i b :=
  List.map_append _ s₁ s₂

theorem sceneSetVisible_of_not_mem (s : List SceneObj) (i : ℕ) (b : Bool)
    (h : ∀ o ∈ s, o.id ≠ i) : sceneSetVisible s i b = s := by
  induction s with
  | nil => rfl
  | cons a rest ih =>
    simp only [sceneSetVisible, List.map_cons] at *
    rw [if_neg (h a (List.mem_cons_self a rest))]
    rw [ih fun o ho => h o (List.mem_cons_of_mem a ho)]

/-- C9: replacing the rig while one exists in the scene removes the old
rig object, inserts the new one hidden, and leaves exactly one rig
object addressable: the `model` variable names the new id, no scene
child carries the old id, and exactly one scene child carries the new
id (and that child is hidden).  The final scene is the old scene minus
the old rig, with the new hidden rig appended after it. -/
theorem replaceWithSkeleton_spec (st : SkelState) (oldId newId : ℕ)
    (hm : st.model = some oldId)
    (hold : oldId ∈ st.scene.map SceneObj.id)
    (hnew : newId ∉ st.scene.map SceneObj.id) :
    (replaceWithSkeleton st newId).model = some newId ∧
    (replaceWithSkeleton st newId).scene =
      (st.scene.filter fun o => o.id ≠ oldId) ++ [⟨newId, false⟩] ∧
    (∀ o ∈ (replaceWithSkeleton st newId).scene, o.id ≠ oldId) ∧
    ((replaceWithSkeleton st newId).scene.map SceneObj.id).count newId = 1 ∧
    (∀ o ∈ (replaceWithSkeleton st newId).scene, o.id = newId → o.visible = false) := by
  have hne : oldId ≠ newId := by
    intro h
    exact hnew (h ▸ hold)
  have hnotin : ∀ o ∈ st.scene, o.id ≠ newId := by
    intro o ho h
    exact hnew (h ▸ List.mem_map_of_mem SceneObj.id ho)
  have hfilter : ∀ o ∈ st.scene.filter (fun o => o.id ≠ oldId), o.id ≠ newId := by
    intro o ho
    exact hnotin o (List.mem_of_mem_filter ho)
  have hscene : (replaceWithSkeleton st newId).scene =
      (st.scene.filter fun o => o.id ≠ oldId) ++ [⟨newId, false⟩] := by
    simp only [replaceWithSkeleton, hm, sceneRemove]
    rw [sceneSetVisible_append]
    rw [sceneSetVisible_of_not_mem _ _ _ hfilter]
    simp [sceneSetVisible]
  refine ⟨rfl, hscene, ?_, ?_, ?_⟩
  · rw [hscene]
    intro o ho
    rcases List.mem_append.1 ho with h1 | h2
    · have := (List.mem_filter.1 h1).2
      simpa using this
    · rw [List.mem_singleton.1 h2]
      exact hne.symm
  · rw [hscene, List.map_append, List.count_append]
    have h0 : ((st.scene.filter fun o => o.id ≠ oldId).map SceneObj.id).count newId = 0 := by
      rw [List.count_eq_zero]
      intro hmem
      obtain ⟨o, ho, hid⟩ := List.mem_map.1 hmem
      exact hfilter o ho hid
    rw [h0]
    simp
  · rw [hscene]
    intro o ho hid
    rcases List.mem_append.1 ho with h1 | h2
    · exact absurd hid (hfilter o h1)
    · rw [List.mem_singleton.1 h2]

/-- Witness for C9: a scene holding the default box rig (id 0) and an
unrelated light (id 7); replacing with a fresh group (id 1) leaves the
light, removes the box, and appends the hidden group. -/
theorem replaceWithSkeleton_spec_witness :
    (replaceWithSkeleton ⟨[⟨0, false⟩, ⟨7, true⟩], some 0⟩ 1).model = some 1 ∧
    (replaceWithSkeleton ⟨[⟨0, false⟩, ⟨7, true⟩], some 0⟩ 1).scene =
      [⟨7, true⟩, ⟨1, false⟩] :=
  ⟨(replaceWithSkeleton_spec ⟨[⟨0, false⟩, ⟨7, true⟩], some 0⟩ 0 1 rfl
      (by decide) (by decide)).1,
    ((replaceWithSkeleton_spec ⟨[⟨0, false⟩, ⟨7, true⟩], some 0⟩ 0 1 rfl
      (by decide) (by decide)).2.1).trans (by decide)⟩

/-- Witness for C7: a tick midway (elapsed 110 of 220 ms) applies the
eased scale 7001/8000 and schedules another tick; a tick past the
duration (elapsed 300 ms) applies exactly scale 1 and schedules none. -/
theorem popInStep_spec_witness :
    popInStep 0 110 = (⟨7001/8000, 7001/8000, 7001/8000⟩, true) ∧
    popInStep 0 300 = (⟨1, 1, 1⟩, false) := by
  constructor
  · have h := (popInStep_spec 0 110).1 (by norm_num [popInDur])
    rw [h]
    norm_num [popInDur, scaleSeed]
  · exact (popInStep_spec 0 300).2 (by norm_num [popInDur])

end Rakugaki
